import Mathlib

/-
Verification of the AFCON 2026 bracket predictor core: the bracket state
machine (useBracketStore: setWinner with cascading reset, reset) and the
derived UI views (MatchCard wiring, selectability, champion display, export
guard) as implemented in src/app/constants.ts (store section), src/app/page.tsx
and src/components/MatchCard.tsx.
-/

namespace AFCON

/-- Team record from MatchCard.tsx: name, emoji flag fallback, ISO code. -/
structure Team where
  name : String
  flag : String
  iso  : String
deriving DecidableEq

/-- The TEAMS record from constants.ts: team name to Team, 8 entries in
source order. -/
def TEAMS : List (String × Team) :=
  [ ("Mali",        ⟨"Mali", "🇲🇱", "ml"⟩),
    ("Senegal",     ⟨"Senegal", "🇸🇳", "sn"⟩),
    ("Egypt",       ⟨"Egypt", "🇪🇬", "eg"⟩),
    ("Ivory Coast", ⟨"Ivory Coast", "🇨🇮", "ci"⟩),
    ("Cameroon",    ⟨"Cameroon", "🇨🇲", "cm"⟩),
    ("Morocco",     ⟨"Morocco", "🇲🇦", "ma"⟩),
    ("Algeria",     ⟨"Algeria", "🇩🇿", "dz"⟩),
    ("Nigeria",     ⟨"Nigeria", "🇳🇬", "ng"⟩) ]

/-- Lookup in the TEAMS record (TS: TEAMS[name], undefined when absent). -/
def lookupTeam (n : String) : Option Team :=
  (TEAMS.find? (fun p => p.1 == n)).map Prod.snd

/-- The winners mapping of BracketState from the store: each of the 7 slots
holds string or null. Field order follows the source. -/
structure Winners where
  q1 : Option String
  q4 : Option String
  q2 : Option String
  q3 : Option String
  sf1 : Option String
  sf2 : Option String
  final : Option String
deriving DecidableEq

/-- The initial winners object of the store: every slot null. -/
def initialWinners : Winners := ⟨none, none, none, none, none, none, none⟩

/-- The 7 match-slot identifiers (keys of BracketState.winners). -/
inductive Slot where
  | q1 | q4 | q2 | q3 | sf1 | sf2 | final
deriving DecidableEq

/-- Read one slot of the winners mapping. -/
def getSlot (w : Winners) : Slot → Option String
  | .q1 => w.q1
  | .q4 => w.q4
  | .q2 => w.q2
  | .q3 => w.q3
  | .sf1 => w.sf1
  | .sf2 => w.sf2
  | .final => w.final

/-- The computed-key spread in setWinner: { ...state.winners, [matchId]: team }. -/
def assign (w : Winners) (s : Slot) (t : String) : Winners :=
  match s with
  | .q1 => { w with q1 := some t }
  | .q4 => { w with q4 := some t }
  | .q2 => { w with q2 := some t }
  | .q3 => { w with q3 := some t }
  | .sf1 => { w with sf1 := some t }
  | .sf2 => { w with sf2 := some t }
  | .final => { w with final := some t }

/-- setWinner from the store: write the new winner, then cascading reset of
dependents, mirroring the three if statements of the source. -/
def setWinner (w : Winners) (matchId : Slot) (team : String) : Winners :=
  let n1 := assign w matchId team
  let n2 := if matchId = Slot.q1 ∨ matchId = Slot.q4 then
              { n1 with sf1 := none, final := none } else n1
  let n3 := if matchId = Slot.q2 ∨ matchId = Slot.q3 then
              { n2 with sf2 := none, final := none } else n2
  let n4 := if matchId = Slot.sf1 ∨ matchId = Slot.sf2 then
              { n3 with final := none } else n3
  n4

/-- reset from the store: replaces the winners mapping with all-null. -/
def reset (_w : Winners) : Winners := initialWinners

/-- TS truthiness of a string-or-null value: null and the empty string are
falsy. Used wherever the source tests !winners.x or winners.x && e. -/
def falsy (o : Option String) : Bool :=
  match o with
  | none => true
  | some s => s == ""

/-- getTeam from page.tsx: null for falsy names, TEAMS lookup with a
white-flag placeholder fallback for unknown names. -/
def getTeam (nameOpt : Option String) : Option Team :=
  match nameOpt with
  | none => none
  | some n =>
    if n == "" then none
    else
      match lookupTeam n with
      | some t => some t
      | none => some ⟨n, "🏳️", ""⟩

/-- The fixed dependency sets of the bracket: sf1 from q1 and q4, sf2 from
q2 and q3, final from sf1 and sf2, quarter-finals from nothing. -/
def deps : Slot → List Slot
  | .sf1 => [Slot.q1, Slot.q4]
  | .sf2 => [Slot.q2, Slot.q3]
  | .final => [Slot.sf1, Slot.sf2]
  | _ => []

/-- The state-dependent props a MatchCard receives in page.tsx. -/
structure MatchCardView where
  team1 : Option Team
  team2 : Option Team
  winner : Option String
  disabled : Bool
deriving DecidableEq

/-- The MatchCard wiring of BracketPage in page.tsx: fixed TEAMS entries for
quarter-finals, getTeam of the feeder winners for semi-finals and final, and
the disabled props exactly as written in the source (quarter-finals receive
no disabled prop, hence false). -/
def slotCard (w : Winners) : Slot → MatchCardView
  | .q1 => ⟨lookupTeam "Mali", lookupTeam "Senegal", w.q1, false⟩
  | .q4 => ⟨lookupTeam "Egypt", lookupTeam "Ivory Coast", w.q4, false⟩
  | .q2 => ⟨lookupTeam "Cameroon", lookupTeam "Morocco", w.q2, false⟩
  | .q3 => ⟨lookupTeam "Algeria", lookupTeam "Nigeria", w.q3, false⟩
  | .sf1 => ⟨getTeam w.q1, getTeam w.q4, w.sf1, falsy w.q1 || falsy w.q4⟩
  | .sf2 => ⟨getTeam w.q2, getTeam w.q3, w.sf2, falsy w.q2 || falsy w.q3⟩
  | .final => ⟨getTeam w.sf1, getTeam w.sf2, w.final, falsy w.sf1 || falsy w.sf2⟩

/-- A slot is selectable when its match card is not disabled. -/
def selectable (w : Winners) (s : Slot) : Bool := !(slotCard w s).disabled

/-- The derived champion: the recorded winner of the final slot, as read by
the champion display in page.tsx (winners.final). -/
def computeChampion (w : Winners) : Option String := w.final

/-- The click handler a TeamRow gets in MatchCard.tsx:
team and not disabled and onSelect(team.name). Returns the team name passed
to onSelect, or none when onSelect is not invoked (a null team renders the
waiting placeholder, which has no click handler at all). -/
def teamRowClick (team : Option Team) (disabled : Bool) : Option String :=
  match team with
  | none => none
  | some t => if disabled then none else some t.name

/-- Clicking the first or second team row of the card for slot s, with the
props page.tsx passes to that card. -/
def uiClick (w : Winners) (s : Slot) (first : Bool) : Option String :=
  let card := slotCard w s
  teamRowClick (if first then card.team1 else card.team2) card.disabled

/-- The shareable image produced by the hidden export layout in page.tsx:
the bracket tree rendered from the winners, and the champion block, which
the layout renders only when winners.final is truthy. -/
structure ExportImage where
  bracket : Winners
  championBlock : Option Team
deriving DecidableEq

/-- handleExport from page.tsx: returns early, producing nothing, when
winners.final is falsy; otherwise produces the export image with the
champion block populated from getTeam(winners.final). -/
def handleExport (w : Winners) : Option ExportImage :=
  if falsy w.final then none
  else some ⟨w, getTeam w.final⟩

/-- States reachable from the empty bracket by finite sequences of setWinner
and reset. setWinner carries the precondition stated by the spec: the
entrant identifier is non-empty. -/
inductive Reachable : Winners → Prop where
  | init : Reachable initialWinners
  | step (w : Winners) (s : Slot) (t : String) (hw : Reachable w)
      (ht : t ≠ "") : Reachable (setWinner w s t)
  | doReset (w : Winners) (hw : Reachable w) : Reachable (reset w)

/-- States reachable from the empty bracket when, additionally, every
setWinner targets a currently selectable slot, as the UI guarantees via the
disabled prop. -/
inductive ReachableUI : Winners → Prop where
  | init : ReachableUI initialWinners
  | step (w : Winners) (s : Slot) (t : String) (hw : ReachableUI w)
      (ht : t ≠ "") (hs : selectable w s = true) : ReachableUI (setWinner w s t)
  | doReset (w : Winners) (hw : ReachableUI w) : ReachableUI (reset w)

/-- Dependency consistency: a decided slot has all its feeder slots decided. -/
def depConsistent (w : Winners) : Prop :=
  (w.sf1 ≠ none → w.q1 ≠ none ∧ w.q4 ≠ none) ∧
  (w.sf2 ≠ none → w.q2 ≠ none ∧ w.q3 ≠ none) ∧
  (w.final ≠ none → w.sf1 ≠ none ∧ w.sf2 ≠ none)

/-- The state after the scenario q1 Senegal, q4 Egypt, sf1 Egypt, then
re-picking q1 Mali, starting from the empty bracket. -/
def scenarioState : Winners :=
  setWinner (setWinner (setWinner (setWinner initialWinners
    Slot.q1 "Senegal") Slot.q4 "Egypt") Slot.sf1 "Egypt") Slot.q1 "Mali"

/-- A fully decided bracket used as a concrete witness state. -/
def fullState : Winners :=
  ⟨some "Mali", some "Egypt", some "Cameroon", some "Algeria",
   some "Egypt", some "Cameroon", some "Egypt"⟩

-- Characterization lemmas for setWinner, one per slot.

theorem setWinner_q1 (w : Winners) (t : String) :
    setWinner w Slot.q1 t = { w with q1 := some t, sf1 := none, final := none } := rfl

theorem setWinner_q4 (w : Winners) (t : String) :
    setWinner w Slot.q4 t = { w with q4 := some t, sf1 := none, final := none } := rfl

theorem setWinner_q2 (w : Winners) (t : String) :
    setWinner w Slot.q2 t = { w with q2 := some t, sf2 := none, final := none } := rfl

theorem setWinner_q3 (w : Winners) (t : String) :
    setWinner w Slot.q3 t = { w with q3 := some t, sf2 := none, final := none } := rfl

theorem setWinner_sf1 (w : Winners) (t : String) :
    setWinner w Slot.sf1 t = { w with sf1 := some t, final := none } := rfl

theorem setWinner_sf2 (w : Winners) (t : String) :
    setWinner w Slot.sf2 t = { w with sf2 := some t, final := none } := rfl

theorem setWinner_final (w : Winners) (t : String) :
    setWinner w Slot.final t = { w with final := some t } := rfl

instance (w : Winners) : Decidable (depConsistent w) := by
  unfold depConsistent; infer_instance

/-- A falsy check returning false means the slot is not null. -/
theorem falsy_false_ne_none {o : Option String} (h : falsy o = false) : o ≠ none := by
  cases o with
  | none => simp [falsy] at h
  | some s => simp

/-- On a value that is not the empty string, falsiness is exactly nullness. -/
theorem falsy_eq_false_iff {o : Option String} (h : o ≠ some "") :
    falsy o = false ↔ o ≠ none := by
  cases o with
  | none => simp [falsy]
  | some s =>
    have hs : s ≠ "" := fun he => h (by rw [he])
    simp [falsy, hs]

/-- A disabled team row never fires onSelect. -/
theorem teamRowClick_disabled (team : Option Team) : teamRowClick team true = none := by
  cases team <;> rfl

/-- C1: setWinner applies exactly the concrete cascading-invalidation rule:
writing q1 or q4 sets that slot and clears sf1 and final; writing q2 or q3
sets that slot and clears sf2 and final; writing sf1 or sf2 sets that slot
and clears final; writing final sets final and clears nothing else. -/
theorem setWinner_cascade_rule (w : Winners) (t : String) :
    setWinner w Slot.q1 t = { w with q1 := some t, sf1 := none, final := none } ∧
    setWinner w Slot.q4 t = { w with q4 := some t, sf1 := none, final := none } ∧
    setWinner w Slot.q2 t = { w with q2 := some t, sf2 := none, final := none } ∧
    setWinner w Slot.q3 t = { w with q3 := some t, sf2 := none, final := none } ∧
    setWinner w Slot.sf1 t = { w with sf1 := some t, final := none } ∧
    setWinner w Slot.sf2 t = { w with sf2 := some t, final := none } ∧
    setWinner w Slot.final t = { w with final := some t } :=
  ⟨rfl, rfl, rfl, rfl, rfl, rfl, rfl⟩

/-- C4: setWinner is idempotent: applying setWinner s w twice consecutively
yields the same winners mapping as applying it once. -/
theorem setWinner_idempotent (w : Winners) (s : Slot) (t : String) :
    setWinner (setWinner w s t) s t = setWinner w s t := by
  cases s <;> rfl

/-- C5: reset totality: after reset all 7 slots read null and the derived
champion is none. -/
theorem reset_totality (w : Winners) :
    (∀ s : Slot, getSlot (reset w) s = none) ∧ computeChampion (reset w) = none :=
  ⟨fun s => by cases s <;> rfl, rfl⟩

/-- C6: after q1 Senegal, q4 Egypt, sf1 Egypt, then re-picking q1 Mali from
the empty bracket, sf1 and final are null and the sf1 card shows Mali versus
Egypt, Egypt from q4 unaffected. -/
theorem scenario_repick :
    scenarioState.sf1 = none ∧ scenarioState.final = none ∧
    (slotCard scenarioState Slot.sf1).team1 = some ⟨"Mali", "🇲🇱", "ml"⟩ ∧
    (slotCard scenarioState Slot.sf1).team2 = some ⟨"Egypt", "🇪🇬", "eg"⟩ := by
  decide

/-- C7: cascade locality: setWinner on q2 leaves sf1, q1 and q4 untouched. -/
theorem setWinner_q2_frame (w : Winners) (t : String) :
    (setWinner w Slot.q2 t).sf1 = w.sf1 ∧
    (setWinner w Slot.q2 t).q1 = w.q1 ∧
    (setWinner w Slot.q2 t).q4 = w.q4 :=
  ⟨rfl, rfl, rfl⟩

/-- C8: setWinner performs no eligibility validation: for every prior state,
slot and non-empty team string, it records the team as the winner of that
slot, never rejecting or leaving the slot unchanged due to ineligibility. -/
theorem setWinner_no_validation (w : Winners) (s : Slot) (t : String)
    (ht : t ≠ "") : getSlot (setWinner w s t) s = some t := by
  cases s <;> rfl

/-- Witness for C8 at an ineligible input: with the bracket empty, Nigeria
is not a contestant of sf1, yet setWinner records it. -/
theorem setWinner_no_validation_witness :
    getSlot (setWinner initialWinners Slot.sf1 "Nigeria") Slot.sf1 = some "Nigeria" :=
  setWinner_no_validation initialWinners Slot.sf1 "Nigeria" (by decide)

/-- C2 counterexample: setWinner on sf1 from the empty bracket is a
one-operation sequence reaching a state where sf1 is decided while its
feeders q1 and q4 are not, so the invariant fails on a reachable state. -/
theorem depConsistent_counterexample :
    Reachable (setWinner initialWinners Slot.sf1 "Egypt") ∧
    ¬ depConsistent (setWinner initialWinners Slot.sf1 "Egypt") :=
  ⟨Reachable.step initialWinners Slot.sf1 "Egypt" Reachable.init (by decide),
   by decide⟩

/-- C2 amended: in every state reachable from the empty bracket by setWinner
and reset where each setWinner targets a currently selectable slot, as the
UI disabled guard enforces, every decided slot has all its feeders decided. -/
theorem reachableUI_depConsistent (w : Winners) (hw : ReachableUI w) :
    depConsistent w := by
  induction hw with
  | init => decide
  | doReset w hw ih => exact (by decide : depConsistent initialWinners)
  | step w s t hw ht hs ih =>
    obtain ⟨ih1, ih2, ih3⟩ := ih
    cases s with
    | q1 => rw [setWinner_q1]; exact ⟨by simp, ih2, by simp⟩
    | q4 => rw [setWinner_q4]; exact ⟨by simp, ih2, by simp⟩
    | q2 => rw [setWinner_q2]; exact ⟨ih1, by simp, by simp⟩
    | q3 => rw [setWinner_q3]; exact ⟨ih1, by simp, by simp⟩
    | sf1 =>
      rw [setWinner_sf1]
      simp only [selectable, slotCard, Bool.not_eq_true', Bool.or_eq_false_iff] at hs
      exact ⟨fun _ => ⟨falsy_false_ne_none hs.1, falsy_false_ne_none hs.2⟩,
             ih2, by simp⟩
    | sf2 =>
      rw [setWinner_sf2]
      simp only [selectable, slotCard, Bool.not_eq_true', Bool.or_eq_false_iff] at hs
      exact ⟨ih1,
             fun _ => ⟨falsy_false_ne_none hs.1, falsy_false_ne_none hs.2⟩,
             by simp⟩
    | final =>
      rw [setWinner_final]
      simp only [selectable, slotCard, Bool.not_eq_true', Bool.or_eq_false_iff] at hs
      exact ⟨ih1, ih2,
             fun _ => ⟨falsy_false_ne_none hs.1, falsy_false_ne_none hs.2⟩⟩

/-- Witness for the amended C2 at a concrete UI-reachable state. -/
theorem reachableUI_depConsistent_witness :
    depConsistent (setWinner initialWinners Slot.q1 "Senegal") :=
  reachableUI_depConsistent _
    (ReachableUI.step initialWinners Slot.q1 "Senegal" ReachableUI.init
      (by decide) (by decide))

/-- No reachable state stores the empty string in a slot, since the spec
precondition keeps entrant identifiers non-empty. -/
theorem reachable_ne_empty {w : Winners} (hw : Reachable w) :
    ∀ s : Slot, getSlot w s ≠ some "" := by
  induction hw with
  | init => intro s; cases s <;> simp [getSlot, initialWinners]
  | doReset w hw ih => intro s; cases s <;> simp [getSlot, reset, initialWinners]
  | step w s t hw ht ih =>
    have h1 := ih Slot.q1
    have h4 := ih Slot.q4
    have h2 := ih Slot.q2
    have h3 := ih Slot.q3
    have h5 := ih Slot.sf1
    have h6 := ih Slot.sf2
    have h7 := ih Slot.final
    simp only [getSlot] at h1 h4 h2 h3 h5 h6 h7
    intro s'
    cases s <;> cases s' <;>
      simp_all [setWinner_q1, setWinner_q4, setWinner_q2, setWinner_q3,
                setWinner_sf1, setWinner_sf2, setWinner_final, getSlot]

/-- C3: in every reachable state, a slot is selectable, that is, its match
card is not disabled, exactly when every slot in its dependency set has a
non-null recorded winner; quarter-finals have no dependencies and are always
selectable. -/
theorem selectable_iff_deps_decided (w : Winners) (hw : Reachable w)
    (s : Slot) : selectable w s = true ↔ ∀ d ∈ deps s, getSlot w d ≠ none := by
  have hne := reachable_ne_empty hw
  have e1 := falsy_eq_false_iff (hne Slot.q1)
  have e4 := falsy_eq_false_iff (hne Slot.q4)
  have e2 := falsy_eq_false_iff (hne Slot.q2)
  have e3 := falsy_eq_false_iff (hne Slot.q3)
  have e5 := falsy_eq_false_iff (hne Slot.sf1)
  have e6 := falsy_eq_false_iff (hne Slot.sf2)
  simp only [getSlot] at e1 e4 e2 e3 e5 e6
  cases s <;>
    simp [selectable, slotCard, deps, getSlot, Bool.not_eq_true',
          Bool.or_eq_false_iff, e1, e4, e2, e3, e5, e6]

/-- Witness for C3: after deciding q1 and q4 from the empty bracket, sf1 is
selectable. -/
theorem selectable_iff_deps_decided_witness :
    selectable (setWinner (setWinner initialWinners Slot.q1 "Senegal")
      Slot.q4 "Egypt") Slot.sf1 = true :=
  (selectable_iff_deps_decided _
    (Reachable.step _ Slot.q4 "Egypt"
      (Reachable.step _ Slot.q1 "Senegal" Reachable.init (by decide))
      (by decide))
    Slot.sf1).mpr (by decide)

/-- C9 counterexample: with the final slot null, handleExport returns early
and produces no image at all, so the absent champion does block export. -/
theorem export_blocked_counterexample :
    initialWinners.final = none ∧ handleExport initialWinners = none :=
  ⟨rfl, rfl⟩

/-- C9 amended: when the final slot is falsy, handleExport early-returns and
produces no image; only when a champion is recorded does it produce the
image, and then the champion block is populated from the final winner. -/
theorem handleExport_guard (w : Winners) :
    (falsy w.final = true → handleExport w = none) ∧
    (falsy w.final = false → handleExport w = some ⟨w, getTeam w.final⟩) := by
  constructor <;> intro h <;> simp [handleExport, h]

/-- Witness for the amended C9 at a fully decided bracket. -/
theorem handleExport_guard_witness :
    handleExport fullState = some ⟨fullState, some ⟨"Egypt", "🇪🇬", "eg"⟩⟩ :=
  (handleExport_guard fullState).2 (by decide)

/-- C10: a disabled card or a null team row never fires onSelect, and no
click on any card of a slot with an undecided dependency can reach
setWinner. -/
theorem ui_click_guard :
    (∀ (team : Option Team) (d : Bool),
      d = true ∨ team = none → teamRowClick team d = none) ∧
    (∀ (w : Winners) (s : Slot), (∃ d ∈ deps s, getSlot w d = none) →
      ∀ (first : Bool), uiClick w s first = none) := by
  constructor
  · intro team d h
    rcases h with h | h
    · rw [h]; exact teamRowClick_disabled team
    · rw [h]; cases d <;> rfl
  · rintro w s ⟨d, hd, hnone⟩ first
    cases s <;> simp only [deps, List.mem_cons, List.not_mem_nil] at hd
    case sf1 =>
      have hdis : (falsy w.q1 || falsy w.q4) = true := by
        rcases hd with h | h | h
        · subst h; simp only [getSlot] at hnone; simp [falsy, hnone]
        · subst h; simp only [getSlot] at hnone; simp [falsy, hnone]
        · exact h.elim
      show teamRowClick _ (falsy w.q1 || falsy w.q4) = none
      rw [hdis]; exact teamRowClick_disabled _
    case sf2 =>
      have hdis : (falsy w.q2 || falsy w.q3) = true := by
        rcases hd with h | h | h
        · subst h; simp only [getSlot] at hnone; simp [falsy, hnone]
        · subst h; simp only [getSlot] at hnone; simp [falsy, hnone]
        · exact h.elim
      show teamRowClick _ (falsy w.q2 || falsy w.q3) = none
      rw [hdis]; exact teamRowClick_disabled _
    case final =>
      have hdis : (falsy w.sf1 || falsy w.sf2) = true := by
        rcases hd with h | h | h
        · subst h; simp only [getSlot] at hnone; simp [falsy, hnone]
        · subst h; simp only [getSlot] at hnone; simp [falsy, hnone]
        · exact h.elim
      show teamRowClick _ (falsy w.sf1 || falsy w.sf2) = none
      rw [hdis]; exact teamRowClick_disabled _

/-- Witness for C10: clicking the sf1 card of the empty bracket fires
nothing, and a null team row with an enabled card fires nothing. -/
theorem ui_click_guard_witness :
    teamRowClick none false = none ∧
    uiClick initialWinners Slot.sf1 true = none :=
  ⟨ui_click_guard.1 none false (Or.inr rfl),
   ui_click_guard.2 initialWinners Slot.sf1 ⟨Slot.q1, by decide, rfl⟩ true⟩

end AFCON
